import Mathlib

/-!
Shallow embedding of the catalog-service query engine
(internal/service/service.go, internal/model, and the gRPC server wrapper)
into Lean 4, together with proofs settling the frozen claims about it.

Modelling conventions:
* Go `time.Time` values are embedded as `Int` (only their chronological
  order matters to the code under study; `Time.Before` is `<`).
* Go machine integers (`int`, `int32`) are embedded as unbounded `Int`.
  All arithmetic in the code under study is exact for stores shorter than
  2^31 entries, where the `int32` conversions are value-preserving; no
  claim hinges on overflow behaviour.
* Go strings are Lean `String`s.  Go compares strings bytewise on UTF-8,
  which coincides with the codepoint-lexicographic order used here.
  `strings.ToLower` is embedded as ASCII lowering (it agrees with Go on
  the ASCII inputs used by every concrete instance below).
* Go maps are embedded as association lists; map iteration order is
  randomised in Go, so operations that range over the map are
  parameterised by the enumeration they happen to observe.
* `strconv.Atoi` is embedded as an exact decimal parser returning
  `Option Int`; Go additionally fails with `ErrRange` on out-of-64-bit
  numbers, but that branch and the parse-failure branch both produce the
  same `InvalidArgument` classification in the code, so exactness is
  faithful for every claim.
* Errors carry the gRPC code and the formatted message string.
-/

/-! ### String helpers (strings.ToLower, strings.Contains,
strings.HasPrefix, strings.TrimPrefix, strings.TrimSpace) -/

/-- ASCII lowering of one character, as Go `unicode.ToLower` acts on ASCII. -/
def lowerChar (c : Char) : Char :=
  if 65 ≤ c.toNat ∧ c.toNat ≤ 90 then Char.ofNat (c.toNat + 32) else c

/-- Embeds `strings.ToLower` (ASCII fragment). -/
def goToLower (s : String) : String :=
  String.mk (s.data.map lowerChar)

/-- Embeds `strings.Contains hay needle`: `needle` occurs contiguously in `hay`. -/
def goContains (hay needle : String) : Bool :=
  decide (needle.data <:+: hay.data)

/-- Embeds `strings.HasPrefix s pre`. -/
def hasPre (s pre : String) : Bool :=
  pre.data.isPrefixOf s.data

/-- Embeds `strings.TrimPrefix s pre` under the guard that the check succeeded:
the code only calls it after `strings.HasPrefix` returned true. -/
def dropPre (s pre : String) : String :=
  String.mk (s.data.drop pre.data.length)

/-- Go `unicode.IsSpace` on the ASCII whitespace characters. -/
def isSpaceChar (c : Char) : Bool :=
  c = ' ' ∨ c = '\t' ∨ c = '\n' ∨ c = '\r'

/-- Embeds `strings.TrimSpace` (ASCII fragment); the spec asks for this on the
search query, the code never calls it. -/
def goTrimSpace (s : String) : String :=
  String.mk ((s.data.dropWhile isSpaceChar).reverse.dropWhile isSpaceChar |>.reverse)

/-! ### Decimal printing and parsing (fmt %d and strconv.Atoi) -/

/-- Decimal digits of `n`, most significant first, with enough `fuel`
(any `fuel > n` suffices; structural recursion keeps this kernel-reducible). -/
def natToDecCharsFuel : Nat → Nat → List Char
  | 0, _ => []
  | fuel + 1, n =>
    if n < 10 then [Char.ofNat (48 + n)]
    else natToDecCharsFuel fuel (n / 10) ++ [Char.ofNat (48 + n % 10)]

/-- Decimal digits of `n`, most significant first (the digits `%d` prints). -/
def natToDecChars (n : Nat) : List Char :=
  natToDecCharsFuel (n + 1) n

/-- Embeds `fmt.Sprintf "%d"` for a natural number. -/
def natToDec (n : Nat) : String :=
  String.mk (natToDecChars n)

/-- Embeds `fmt.Sprintf "%d"` for an integer. -/
def intToDec (i : Int) : String :=
  if i < 0 then "-" ++ natToDec i.natAbs else natToDec i.toNat

/-- Value of one decimal digit character. -/
def digitVal (c : Char) : Option Nat :=
  if 48 ≤ c.toNat ∧ c.toNat ≤ 57 then some (c.toNat - 48) else none

/-- Accumulating decimal parse of a digit string. -/
def parseDigitsAux : List Char → Nat → Option Nat
  | [], acc => some acc
  | c :: rest, acc =>
    match digitVal c with
    | none => none
    | some d => parseDigitsAux rest (10 * acc + d)

/-- Parse a non-empty all-digit string. -/
def parseDigits : List Char → Option Nat
  | [] => none
  | c :: rest => parseDigitsAux (c :: rest) 0

/-- Embeds `strconv.Atoi`: optional sign, then at least one digit. -/
def atoi (s : String) : Option Int :=
  match s.data with
  | [] => none
  | c :: rest =>
    if c = '+' then (parseDigits rest).map (fun n => (n : Int))
    else if c = '-' then (parseDigits rest).map (fun n => -(n : Int))
    else (parseDigits (c :: rest)).map (fun n => (n : Int))

deriving instance DecidableEq for Except

/-! ### Data model (internal/model/model.go) -/

/-- Embeds `model.ServiceVersion`. -/
structure ServiceVersion where
  id : String
  version : String
  serviceID : String
  description : String
  isActive : Bool
  createdAt : Int
  updatedAt : Int
  deriving DecidableEq

/-- Embeds `model.Service`. -/
structure Service where
  id : String
  name : String
  description : String
  organizationID : String
  url : String
  createdAt : Int
  updatedAt : Int
  versions : List ServiceVersion
  deriving DecidableEq

/-! ### Wire (proto) shapes and requests -/

/-- Embeds `v1.ServiceVersion` wire shape. -/
structure ProtoServiceVersion where
  id : String
  version : String
  serviceId : String
  description : String
  isActive : Bool
  createdAt : Int
  updatedAt : Int
  deriving DecidableEq

/-- Embeds `v1.Service` wire shape. -/
structure ProtoService where
  id : String
  name : String
  description : String
  organizationId : String
  url : String
  createdAt : Int
  updatedAt : Int
  versions : List ProtoServiceVersion
  deriving DecidableEq

/-- Embeds `v1.ListServicesRequest` (proto getters return the zero value, so the
fields are plain). -/
structure ListServicesRequest where
  pageSize : Int
  pageToken : String
  organizationId : String
  searchQuery : String
  sortBy : String
  sortOrder : String
  deriving DecidableEq

/-- Embeds `v1.GetServiceRequest`. -/
structure GetServiceRequest where
  id : String
  deriving DecidableEq

/-- Embeds `v1.GetServiceVersionsRequest`. -/
structure GetServiceVersionsRequest where
  serviceId : String
  deriving DecidableEq

/-- Embeds `v1.ListServicesResponse`. -/
structure ListServicesResponse where
  services : List ProtoService
  nextPageToken : String
  totalCount : Int
  deriving DecidableEq

/-- Embeds `v1.GetServiceResponse`. -/
structure GetServiceResponse where
  service : ProtoService
  deriving DecidableEq

/-- Embeds `v1.GetServiceVersionsResponse`. -/
structure GetServiceVersionsResponse where
  versions : List ProtoServiceVersion
  deriving DecidableEq

/-- gRPC status codes used by the service layer. -/
inductive StatusCode where
  | invalidArgument
  | notFound
  | cancelled
  deriving DecidableEq

/-- A gRPC status error: code plus formatted message. -/
structure StatusError where
  code : StatusCode
  msg : String
  deriving DecidableEq

/-! ### Constants and error text (service.go) -/

def MaxPageSize : Int := 100

def DefaultPageSize : Int := 10

/-- Embeds `ErrInvalidRequest.Error()`. -/
def errInvalidRequestText : String := "invalid request"

/-- Embeds `ErrServiceNotFound.Error()`. -/
def errServiceNotFoundText : String := "service not found"

/-- Embeds `validSortFields` membership. -/
def validSortFields (s : String) : Bool :=
  s = "name" ∨ s = "created_at" ∨ s = "updated_at"

/-- Embeds `validSortOrders` membership. -/
def validSortOrders (s : String) : Bool :=
  s = "asc" ∨ s = "desc"

/-! ### Wire conversion (convertToProtoService, convertVersionsToProto) -/

/-- Body of the loop in `convertVersionsToProto`. -/
def convertVersionToProto (v : ServiceVersion) : ProtoServiceVersion :=
  { id := v.id
    version := v.version
    serviceId := v.serviceID
    description := v.description
    isActive := v.isActive
    createdAt := v.createdAt
    updatedAt := v.updatedAt }

/-- Embeds `convertVersionsToProto`. -/
def convertVersionsToProto (versions : List ServiceVersion) : List ProtoServiceVersion :=
  versions.map convertVersionToProto

/-- Embeds `convertToProtoService`. -/
def convertToProtoService (s : Service) : ProtoService :=
  { id := s.id
    name := s.name
    description := s.description
    organizationId := s.organizationID
    url := s.url
    createdAt := s.createdAt
    updatedAt := s.updatedAt
    versions := convertVersionsToProto s.versions }

/-! ### Validators (service.go validate*) -/

/-- Embeds `validateListServicesRequest`. -/
def validateListServicesRequest (req : ListServicesRequest) : Except StatusError Unit :=
  if req.pageSize < 0 ∨ req.pageSize > MaxPageSize then
    .error { code := .invalidArgument
             msg := errInvalidRequestText ++ ": page_size must be between 0 and "
                      ++ intToDec MaxPageSize ++ ", got " ++ intToDec req.pageSize }
  else .ok ()

/-- Embeds `validateGetServiceRequest`. -/
def validateGetServiceRequest (req : GetServiceRequest) : Except StatusError Unit :=
  if req.id = "" then
    .error { code := .invalidArgument
             msg := errInvalidRequestText ++ ": service ID is required" }
  else .ok ()

/-- Embeds `validateGetServiceVersionsRequest`. -/
def validateGetServiceVersionsRequest (req : GetServiceVersionsRequest) :
    Except StatusError Unit :=
  if req.serviceId = "" then
    .error { code := .invalidArgument
             msg := errInvalidRequestText ++ ": service ID is required" }
  else .ok ()

/-! ### Page size and page token (getPageSize, getStartIndex) -/

/-- Embeds `getPageSize`. -/
def getPageSize (requestedPageSize : Int) : Int :=
  if requestedPageSize = 0 then DefaultPageSize else requestedPageSize

/-- Embeds `getStartIndex`.  The `pageSize` argument is present (and unused)
exactly as in the source. -/
def getStartIndex (pageToken : String) (pageSize : Int) (totalCount : Int) :
    Except StatusError Int :=
  if pageToken = "" then .ok 0
  else if ¬ hasPre pageToken "page_" then
    .error { code := .invalidArgument
             msg := errInvalidRequestText ++ ": invalid page token format" }
  else
    match atoi (dropPre pageToken "page_") with
    | none =>
      .error { code := .invalidArgument
               msg := errInvalidRequestText ++ ": invalid page token: parse error" }
    | some offset =>
      if offset < 0 ∨ offset ≥ totalCount then
        .error { code := .invalidArgument
                 msg := errInvalidRequestText ++ ": page token out of range" }
      else .ok offset

/-! ### Filtering (filterServices) -/

/-- One iteration of the loop in `filterServices`: the service survives
both `continue` guards. -/
def keepService (req : ListServicesRequest) (s : Service) : Bool :=
  (req.organizationId = "" ∨ s.organizationID = req.organizationId) ∧
  (req.searchQuery = "" ∨
    (goContains (goToLower s.name) (goToLower req.searchQuery) ∨
     goContains (goToLower s.description) (goToLower req.searchQuery)))

/-- Embeds `filterServices`. -/
def filterServices (services : List Service) (req : ListServicesRequest) :
    List Service :=
  services.filter (keepService req)

/-! ### Sorting (sortServices) -/

/-- The `switch sortBy` comparison inside the `sort.Slice` closure.
Go compares strings bytewise on UTF-8, which is the lexicographic order
on their codepoint sequences, embedded here as `<` on `List Char`. -/
def compareLess (sortBy : String) (a b : Service) : Bool :=
  if sortBy = "name" then decide (a.name.data < b.name.data)
  else if sortBy = "created_at" then decide (a.createdAt < b.createdAt)
  else if sortBy = "updated_at" then decide (a.updatedAt < b.updatedAt)
  else decide (a.name.data < b.name.data)

/-- The full `less` closure handed to `sort.Slice` (after the `desc`
inversion). -/
def sortLess (sortBy sortOrder : String) (a b : Service) : Bool :=
  let r := compareLess sortBy a b
  if sortOrder = "desc" then !r else r

/-- Defaulting of `sortBy` done at the top of `sortServices`. -/
def normSortBy (sortBy : String) : String :=
  let sb := if sortBy = "" then "name" else sortBy
  if validSortFields sb then sb else "name"

/-- Defaulting of `sortOrder` done at the top of `sortServices`. -/
def normSortOrder (sortOrder : String) : String :=
  let so := if sortOrder = "" then "asc" else sortOrder
  if validSortOrders so then so else "asc"

/-- The total preorder induced by the `less` closure: `sort.Slice`
guarantees an output in which no element is strictly `less` than a
predecessor, i.e. consecutive elements satisfy
`less a b ∨ ¬ less b a`.  Sorting under this relation realises that
postcondition deterministically. -/
def sortLe (sortBy sortOrder : String) (a b : Service) : Bool :=
  sortLess sortBy sortOrder a b || !(sortLess sortBy sortOrder b a)

/-- Embeds `sortServices` (the in-place `sort.Slice`, as a function on the local
slice it reorders; realised by an insertion sort under `sortLe`). -/
def sortServices (services : List Service) (sortBy sortOrder : String) :
    List Service :=
  services.insertionSort
    (fun a b => sortLe (normSortBy sortBy) (normSortOrder sortOrder) a b = true)

/-! ### Pagination (paginateServices) -/

/-- The `endIndex` computation of `paginateServices`: the tentative end
`startIndex + pageSize`, clamped to `totalCount`. -/
def paginateEnd (startIndex pageSize totalCount : Int) : Int :=
  if startIndex + pageSize > totalCount then totalCount else startIndex + pageSize

/-- Embeds `paginateServices`. -/
def paginateServices (services : List Service) (startIndex pageSize : Int) :
    Except StatusError ListServicesResponse :=
  let totalCount : Int := services.length
  if startIndex ≥ totalCount then
    .ok { services := [], nextPageToken := "", totalCount := totalCount }
  else
    let endIndex : Int := paginateEnd startIndex pageSize totalCount
    let protoServices :=
      ((services.drop startIndex.toNat).take (endIndex - startIndex).toNat).map
        convertToProtoService
    let nextPageToken :=
      if endIndex < totalCount then "page_" ++ intToDec endIndex else ""
    .ok { services := protoServices
          nextPageToken := nextPageToken
          totalCount := totalCount }

/-! ### The catalog store and the three operations -/

/-- Embeds `CatalogService`: the `map[string]*model.Service` as an association
list in insertion order (Go maps only randomise iteration, never the
key-value association, which this list records). -/
structure CatalogService where
  data : List (String × Service)
  deriving DecidableEq

/-- One Go map assignment `m[k] = v`: overwrite, else append. -/
def mapInsert (m : List (String × Service)) (k : String) (v : Service) :
    List (String × Service) :=
  if m.any (fun p => p.fst = k) then
    m.map (fun p => if p.fst = k then (k, v) else p)
  else m ++ [(k, v)]

/-- Go map lookup `m[k]`. -/
def mapLookup (m : List (String × Service)) (k : String) : Option Service :=
  (m.find? (fun p => p.fst = k)).map Prod.snd

/-- Embeds `NewCatalogService`: builds the id-keyed map from the store slice. -/
def NewCatalogService (store : List Service) : CatalogService :=
  { data := store.foldl (fun m s => mapInsert m s.id s) [] }

/-- Embeds `getServiceByID`. -/
def getServiceByID (c : CatalogService) (id : String) :
    Except StatusError Service :=
  match mapLookup c.data id with
  | none =>
    .error { code := .notFound
             msg := errServiceNotFoundText ++ ": service with ID \x27" ++ id
                      ++ "\x27 not found" }
  | some svc => .ok svc

/-- The post-`getAllServices` pipeline of `CatalogService.ListServices`,
parameterised by the enumeration `enum` that the randomised map
iteration in `getAllServices` produced (always some permutation of the
map's values). -/
def listServicesWith (enum : List Service) (req : ListServicesRequest) :
    Except StatusError ListServicesResponse :=
  match validateListServicesRequest req with
  | .error e => .error e
  | .ok _ =>
    let filtered := filterServices enum req
    let sorted := sortServices filtered req.sortBy req.sortOrder
    let pageSize := getPageSize req.pageSize
    match getStartIndex req.pageToken pageSize sorted.length with
    | .error e => .error e
    | .ok startIndex => paginateServices sorted startIndex pageSize

/-- Embeds `getAllServices` observed under the canonical (insertion-order)
enumeration of the map. -/
def getAllServices (c : CatalogService) : List Service :=
  c.data.map Prod.snd

/-- Embeds `CatalogService.ListServices` under the canonical enumeration. -/
def CatalogService.ListServices (c : CatalogService) (req : ListServicesRequest) :
    Except StatusError ListServicesResponse :=
  listServicesWith (getAllServices c) req

/-- Embeds `CatalogService.GetService`. -/
def CatalogService.GetService (c : CatalogService) (req : GetServiceRequest) :
    Except StatusError GetServiceResponse :=
  match validateGetServiceRequest req with
  | .error e => .error e
  | .ok _ =>
    match getServiceByID c req.id with
    | .error e => .error e
    | .ok svc => .ok { service := convertToProtoService svc }

/-- Embeds `CatalogService.GetServiceVersions`. -/
def CatalogService.GetServiceVersions (c : CatalogService)
    (req : GetServiceVersionsRequest) :
    Except StatusError GetServiceVersionsResponse :=
  match validateGetServiceVersionsRequest req with
  | .error e => .error e
  | .ok _ =>
    match getServiceByID c req.serviceId with
    | .error e => .error e
    | .ok svc => .ok { versions := convertVersionsToProto svc.versions }

/-! ### gRPC server wrapper (internal/api/grpc server.go): context check -/

/-- The caller's context, reduced to the one observation the server layer
makes of it: whether `ctx.Err()` is already non-nil on entry. -/
structure GoContext where
  cancelled : Bool

/-- The error the server wrapper returns on a cancelled context. -/
def cancelledError : StatusError :=
  { code := .cancelled, msg := "request cancelled" }

/-- Embeds `Server.ListServices`: short-circuits on a cancelled context, else
delegates to the service layer (under enumeration `enum`). -/
def Server.ListServices (ctx : GoContext) (enum : List Service)
    (req : ListServicesRequest) : Except StatusError ListServicesResponse :=
  if ctx.cancelled then .error cancelledError
  else listServicesWith enum req

/-- Embeds `Server.GetService`. -/
def Server.GetService (ctx : GoContext) (c : CatalogService)
    (req : GetServiceRequest) : Except StatusError GetServiceResponse :=
  if ctx.cancelled then .error cancelledError
  else c.GetService req

/-- Embeds `Server.GetServiceVersions`. -/
def Server.GetServiceVersions (ctx : GoContext) (c : CatalogService)
    (req : GetServiceVersionsRequest) :
    Except StatusError GetServiceVersionsResponse :=
  if ctx.cancelled then .error cancelledError
  else c.GetServiceVersions req

/-! ## Supporting lemmas -/

/-- Parsing distributes over appending digit strings. -/
theorem parseDigitsAux_append (l1 l2 : List Char) (acc : Nat) :
    parseDigitsAux (l1 ++ l2) acc =
      match parseDigitsAux l1 acc with
      | none => none
      | some m => parseDigitsAux l2 m := by
  induction l1 generalizing acc with
  | nil => rfl
  | cons c cs ih =>
    simp only [List.cons_append, parseDigitsAux]
    cases digitVal c with
    | none => rfl
    | some d => exact ih _

/-- Value of a printed digit. -/
theorem digitVal_digit (d : Nat) (h : d < 10) :
    digitVal (Char.ofNat (48 + d)) = some d := by
  interval_cases d <;> decide

/-- The fuel-indexed printer emits a non-empty digit string whose parse
recovers the printed number (relative to any accumulator). -/
theorem natToDecCharsFuel_spec (fuel : Nat) :
    ∀ n acc, n < fuel →
      natToDecCharsFuel fuel n ≠ [] ∧
      parseDigitsAux (natToDecCharsFuel fuel n) acc =
        some (acc * 10 ^ (natToDecCharsFuel fuel n).length + n) := by
  induction fuel with
  | zero => intro n acc h; omega
  | succ fuel ih =>
    intro n acc h
    by_cases h10 : n < 10
    · refine ⟨by simp [natToDecCharsFuel, h10], ?_⟩
      simp only [natToDecCharsFuel, if_pos h10, parseDigitsAux, digitVal_digit n h10,
        List.length_singleton]
      congr 1
      ring
    · have hdiv : n / 10 < n := Nat.div_lt_self (by omega) (by omega)
      have hrec := ih (n / 10) acc (by omega)
      refine ⟨by simp [natToDecCharsFuel, h10], ?_⟩
      simp only [natToDecCharsFuel, if_neg h10, parseDigitsAux_append, hrec.2,
        parseDigitsAux, digitVal_digit (n % 10) (Nat.mod_lt n (by omega)),
        List.length_append, List.length_singleton]
      congr 1
      have hnm : 10 * (n / 10) + n % 10 = n := by omega
      calc 10 * (acc * 10 ^ (natToDecCharsFuel fuel (n / 10)).length + n / 10) + n % 10
          = acc * 10 ^ ((natToDecCharsFuel fuel (n / 10)).length + 1)
            + (10 * (n / 10) + n % 10) := by ring
        _ = acc * 10 ^ ((natToDecCharsFuel fuel (n / 10)).length + 1) + n := by rw [hnm]

/-- The first printed character is a decimal digit. -/
theorem natToDecCharsFuel_head (fuel : Nat) :
    ∀ n, n < fuel → ∃ c cs, natToDecCharsFuel fuel n = c :: cs ∧
      48 ≤ c.toNat ∧ c.toNat ≤ 57 := by
  induction fuel with
  | zero => intro n h; omega
  | succ fuel ih =>
    intro n h
    by_cases h10 : n < 10
    · refine ⟨Char.ofNat (48 + n), [], by simp [natToDecCharsFuel, h10], ?_⟩
      interval_cases n <;> exact ⟨by decide, by decide⟩
    · have hdiv : n / 10 < n := Nat.div_lt_self (by omega) (by omega)
      obtain ⟨c, cs, heq, hc⟩ := ih (n / 10) (by omega)
      exact ⟨c, cs ++ [Char.ofNat (48 + n % 10)],
        by simp [natToDecCharsFuel, h10, heq], hc⟩

/-- Parsing a printed natural number recovers it. -/
theorem parseDigits_natToDecChars (n : Nat) :
    parseDigits (natToDecChars n) = some n := by
  obtain ⟨c, cs, heq, _⟩ := natToDecCharsFuel_head (n + 1) n (by omega)
  have hspec := (natToDecCharsFuel_spec (n + 1) n 0 (by omega)).2
  unfold natToDecChars
  rw [heq]
  rw [heq] at hspec
  simpa using hspec

/-- Embedded `strconv.Atoi` inverts the embedded `%d` printer. -/
theorem atoi_natToDec (n : Nat) : atoi (natToDec n) = some (n : Int) := by
  obtain ⟨c, cs, heq, h48, h57⟩ := natToDecCharsFuel_head (n + 1) n (by omega)
  have hparse := parseDigits_natToDecChars n
  unfold natToDec natToDecChars at *
  rw [heq] at hparse
  unfold atoi
  simp only [heq]
  have hplus : c ≠ '+' := by
    intro hc; rw [hc] at h48; revert h48; decide
  have hminus : c ≠ '-' := by
    intro hc; rw [hc] at h48; revert h48; decide
  simp [hplus, hminus, hparse]

/-- A minted page token is never the empty string. -/
theorem pageToken_ne_empty (x : String) : ("page_" ++ x) ≠ "" := by
  simp [String.ext_iff]

/-- A minted page token passes the `strings.HasPrefix` check. -/
theorem hasPre_page (x : String) : hasPre ("page_" ++ x) "page_" = true := by
  simp [hasPre, List.isPrefixOf_iff_prefix]

/-- Trimming the prefix of a minted token recovers its payload. -/
theorem dropPre_page (x : String) : dropPre ("page_" ++ x) "page_" = x := by
  simp [dropPre, String.data_append, List.drop_left]

/-- A token carrying the `page_` mark decomposes as mark plus payload. -/
theorem hasPre_decomp (t : String) (h : hasPre t "page_" = true) :
    t = "page_" ++ dropPre t "page_" := by
  rw [hasPre, List.isPrefixOf_iff_prefix] at h
  obtain ⟨rest, hrest⟩ := h
  rw [String.ext_iff, String.data_append, dropPre, ← hrest]
  simp

/-- Decoding the empty token yields offset 0. -/
theorem getStartIndex_empty (p N : Int) : getStartIndex "" p N = .ok 0 := rfl

/-- Decoding a minted token recovers the minted offset when in range. -/
theorem getStartIndex_minted (o : Nat) (p N : Int) (h : (o : Int) < N) :
    getStartIndex ("page_" ++ natToDec o) p N = .ok o := by
  unfold getStartIndex
  rw [if_neg (pageToken_ne_empty _), if_neg (by simp [hasPre_page])]
  rw [dropPre_page, atoi_natToDec]
  simp only []
  rw [if_neg (by push_neg; exact ⟨by positivity, h⟩)]

/-! ## Claim C3 -/

/-- C3: for every request and filtered-set size, an empty page token
yields offset 0 and no error; a token that does not consist of the
`page_` mark followed by an `strconv.Atoi`-parsable integer yields
`InvalidArgument`; a parsable token whose integer is negative or not
strictly below the filtered-set size yields `InvalidArgument`; and
otherwise the decoded offset is exactly that integer. -/
theorem C3_getStartIndex_spec (p N : Int) :
    getStartIndex "" p N = .ok 0 ∧
    (∀ t, t ≠ "" → (∀ s, t = "page_" ++ s → atoi s = none) →
      ∃ m, getStartIndex t p N = .error { code := .invalidArgument, msg := m }) ∧
    (∀ s n, atoi s = some n → (n < 0 ∨ n ≥ N) →
      ∃ m, getStartIndex ("page_" ++ s) p N =
        .error { code := .invalidArgument, msg := m }) ∧
    (∀ s n, atoi s = some n → 0 ≤ n → n < N →
      getStartIndex ("page_" ++ s) p N = .ok n) := by
  refine ⟨rfl, ?_, ?_, ?_⟩
  · intro t hne hmal
    by_cases hpre : hasPre t "page_" = true
    · have hdec := hasPre_decomp t hpre
      have hnone := hmal (dropPre t "page_") hdec
      refine ⟨errInvalidRequestText ++ ": invalid page token: parse error", ?_⟩
      unfold getStartIndex
      rw [if_neg hne, if_neg (by simp [hpre]), hnone]
    · refine ⟨errInvalidRequestText ++ ": invalid page token format", ?_⟩
      unfold getStartIndex
      rw [if_neg hne, if_pos (by simpa using hpre)]
  · intro s n hs hrange
    refine ⟨errInvalidRequestText ++ ": page token out of range", ?_⟩
    unfold getStartIndex
    rw [if_neg (pageToken_ne_empty _), if_neg (by simp [hasPre_page]),
      dropPre_page, hs]
    simp only []
    rw [if_pos hrange]
  · intro s n hs h0 hN
    unfold getStartIndex
    rw [if_neg (pageToken_ne_empty _), if_neg (by simp [hasPre_page]),
      dropPre_page, hs]
    simp only []
    rw [if_neg (by push_neg; exact ⟨h0, hN⟩)]

/-- Witness instantiating C3 at concrete tokens: an empty token, a
malformed token, an out-of-range token and a valid one. -/
theorem C3_getStartIndex_spec_witness :
    getStartIndex "" 5 10 = .ok 0 ∧
    (∃ m, getStartIndex "bogus" 5 10 =
      .error { code := .invalidArgument, msg := m }) ∧
    (∃ m, getStartIndex ("page_" ++ "15") 5 10 =
      .error { code := .invalidArgument, msg := m }) ∧
    getStartIndex ("page_" ++ "2") 5 10 = .ok 2 := by
  obtain ⟨h1, h2, h3, h4⟩ := C3_getStartIndex_spec 5 10
  refine ⟨h1, ?_, ?_, ?_⟩
  · refine h2 "bogus" (by decide) ?_
    intro s h
    exfalso
    have hd := congrArg String.data h
    simp [String.data_append] at hd
  · exact h3 "15" 15 (by decide) (by decide)
  · exact h4 "2" 2 (by decide) (by decide) (by decide)

/-- A failed validation short-circuits the List pipeline. -/
theorem listServicesWith_error (enum : List Service) (req : ListServicesRequest)
    (e : StatusError) (h : validateListServicesRequest req = .error e) :
    listServicesWith enum req = .error e := by
  unfold listServicesWith
  rw [h]

/-! ## Claim C5 -/

/-- C5: for every request, a page size of 150 or of -1 yields
`InvalidArgument` whose message mentions the bound "0 and 100", and a
request with page size 0 returns a result identical to the same request
with page size 10. -/
theorem C5_pageSize_spec (enum : List Service) (token org q sb so : String) :
    (∃ m, listServicesWith enum
        { pageSize := 150, pageToken := token, organizationId := org,
          searchQuery := q, sortBy := sb, sortOrder := so } =
          .error { code := .invalidArgument, msg := m } ∧
        goContains m "0 and 100" = true) ∧
    (∃ m, listServicesWith enum
        { pageSize := -1, pageToken := token, organizationId := org,
          searchQuery := q, sortBy := sb, sortOrder := so } =
          .error { code := .invalidArgument, msg := m } ∧
        goContains m "0 and 100" = true) ∧
    listServicesWith enum
        { pageSize := 0, pageToken := token, organizationId := org,
          searchQuery := q, sortBy := sb, sortOrder := so } =
      listServicesWith enum
        { pageSize := 10, pageToken := token, organizationId := org,
          searchQuery := q, sortBy := sb, sortOrder := so } := by
  refine ⟨⟨errInvalidRequestText ++ ": page_size must be between 0 and "
        ++ intToDec MaxPageSize ++ ", got " ++ intToDec 150,
      listServicesWith_error _ _ _ rfl, by decide⟩,
    ⟨errInvalidRequestText ++ ": page_size must be between 0 and "
        ++ intToDec MaxPageSize ++ ", got " ++ intToDec (-1),
      listServicesWith_error _ _ _ rfl, by decide⟩, rfl⟩

/-! ## Claim C7 -/

/-- C7: GetService with an empty id yields `InvalidArgument` (not
`NotFound`); a non-empty id absent from the store yields `NotFound` with
a message containing the missing id; a present id returns exactly the
stored record, its id, name, description, organization-id and url
unchanged. -/
theorem C7_getService_spec :
    (∀ c : CatalogService, c.GetService { id := "" } =
      .error { code := .invalidArgument,
               msg := errInvalidRequestText ++ ": service ID is required" }) ∧
    (∀ (c : CatalogService) (id : String), id ≠ "" →
      mapLookup c.data id = none →
      ∃ m, c.GetService { id := id } = .error { code := .notFound, msg := m } ∧
        goContains m id = true) ∧
    (∀ (c : CatalogService) (id : String) (s : Service), id ≠ "" →
      mapLookup c.data id = some s →
      c.GetService { id := id } = .ok { service := convertToProtoService s } ∧
      (convertToProtoService s).id = s.id ∧
      (convertToProtoService s).name = s.name ∧
      (convertToProtoService s).description = s.description ∧
      (convertToProtoService s).organizationId = s.organizationID ∧
      (convertToProtoService s).url = s.url) := by
  refine ⟨fun c => rfl, ?_, ?_⟩
  · intro c id h1 h2
    refine ⟨errServiceNotFoundText ++ ": service with ID \x27" ++ id
        ++ "\x27 not found", ?_, ?_⟩
    · simp only [CatalogService.GetService, validateGetServiceRequest,
        if_neg h1, getServiceByID, h2]
    · rw [goContains, decide_eq_true_eq]
      exact ⟨(errServiceNotFoundText ++ ": service with ID \x27").data,
        "\x27 not found".data, by simp⟩
  · intro c id s h1 h2
    refine ⟨?_, rfl, rfl, rfl, rfl, rfl⟩
    simp only [CatalogService.GetService, validateGetServiceRequest,
      if_neg h1, getServiceByID, h2]

/-- Fixture: the `svc-1` record of the repository test data (timestamps
as abstract instants). -/
def svcUser : Service :=
  { id := "svc-1", name := "User Service"
    description := "Handles user authentication and profile management"
    organizationID := "org-1", url := "https://services.example.com/user"
    createdAt := 0, updatedAt := 1, versions := [] }

/-- Fixture: a one-service catalog store holding `svc-1`. -/
def storeOne : CatalogService := { data := [("svc-1", svcUser)] }

/-- Witness instantiating C7 on a one-service store: the empty id, an
absent id and a present id. -/
theorem C7_getService_spec_witness :
    storeOne.GetService { id := "" } =
      .error { code := .invalidArgument,
               msg := errInvalidRequestText ++ ": service ID is required" } ∧
    (∃ m, storeOne.GetService { id := "does-not-exist" } =
      .error { code := .notFound, msg := m } ∧
      goContains m "does-not-exist" = true) ∧
    storeOne.GetService { id := "svc-1" } =
      .ok { service := convertToProtoService svcUser } := by
  obtain ⟨h1, h2, h3⟩ := C7_getService_spec
  exact ⟨h1 storeOne, h2 storeOne "does-not-exist" (by decide) (by decide),
    (h3 storeOne "svc-1" svcUser (by decide) (by decide)).1⟩

/-! ## Claim C8 -/

/-- C8: when the caller's context is already cancelled on entry, each of
the three server operations short-circuits to the distinct `Cancelled`
error and produces no result. -/
theorem C8_cancelled_spec (ctx : GoContext) (enum : List Service)
    (c : CatalogService) (r1 : ListServicesRequest) (r2 : GetServiceRequest)
    (r3 : GetServiceVersionsRequest) (h : ctx.cancelled = true) :
    Server.ListServices ctx enum r1 = .error cancelledError ∧
    Server.GetService ctx c r2 = .error cancelledError ∧
    Server.GetServiceVersions ctx c r3 = .error cancelledError ∧
    cancelledError.code = .cancelled := by
  exact ⟨by simp [Server.ListServices, h], by simp [Server.GetService, h],
    by simp [Server.GetServiceVersions, h], rfl⟩

/-- Witness instantiating C8 with a concrete cancelled context. -/
theorem C8_cancelled_spec_witness :
    Server.ListServices { cancelled := true } []
        { pageSize := 10, pageToken := "", organizationId := "",
          searchQuery := "", sortBy := "", sortOrder := "" } =
      .error cancelledError ∧
    Server.GetService { cancelled := true } { data := [] } { id := "svc-1" } =
      .error cancelledError ∧
    Server.GetServiceVersions { cancelled := true } { data := [] }
        { serviceId := "svc-1" } = .error cancelledError := by
  have h := C8_cancelled_spec { cancelled := true } [] { data := [] }
    { pageSize := 10, pageToken := "", organizationId := "",
      searchQuery := "", sortBy := "", sortOrder := "" }
    { id := "svc-1" } { serviceId := "svc-1" } rfl
  exact ⟨h.1, h.2.1, h.2.2.1⟩

/-! ## Claim C2 (code bug: the query is not trimmed) -/

/-- C2: evaluation of the filter at the repository's own test input (test
"filter with trimmed search query", search query "  User  ", fixture
service `svc-1` named "User Service").  The code keeps no service —
`filterServices` lowercases the query but never trims it — although the
trimmed, lowercased query does match the fixture's name, which is what
the claim (and the repository's test) requires. -/
theorem C2_filter_does_not_trim_query :
    filterServices [svcUser]
        { pageSize := 10, pageToken := "", organizationId := "",
          searchQuery := "  User  ", sortBy := "", sortOrder := "" } = [] ∧
    goContains (goToLower svcUser.name) (goToLower (goTrimSpace "  User  ")) = true ∧
    goContains (goToLower svcUser.name) (goToLower "  User  ") = false := by
  exact ⟨by decide, by decide, by decide⟩

/-! ## Claim C10 -/

/-- Effective page size is at least 1 once validation has passed. -/
theorem getPageSize_pos (ps : Int) (h : ¬ (ps < 0 ∨ ps > MaxPageSize)) :
    1 ≤ getPageSize ps := by
  unfold getPageSize
  by_cases h0 : ps = 0
  · rw [if_pos h0]; decide
  · rw [if_neg h0]
    push_neg at h
    omega

/-- Inversion of `getStartIndex`: a decoded offset is either 0 from the
empty token, or lies strictly inside the filtered set. -/
theorem getStartIndex_ok_inv (t : String) (p N start : Int)
    (h : getStartIndex t p N = .ok start) :
    (t = "" ∧ start = 0) ∨ (0 ≤ start ∧ start < N) := by
  unfold getStartIndex at h
  by_cases h1 : t = ""
  · rw [if_pos h1] at h
    exact Or.inl ⟨h1, by injection h with h; omega⟩
  · rw [if_neg h1] at h
    by_cases h2 : hasPre t "page_" = true
    · rw [if_neg (by simp [h2])] at h
      cases hatoi : atoi (dropPre t "page_") with
      | none => rw [hatoi] at h; exact absurd h (by simp)
      | some o =>
        rw [hatoi] at h
        simp only [] at h
        by_cases h3 : o < 0 ∨ o ≥ N
        · rw [if_pos h3] at h; exact absurd h (by simp)
        · rw [if_neg h3] at h
          injection h with h
          push_neg at h3
          omega
    · rw [if_pos (by simpa using h2)] at h
      exact absurd h (by simp)

/-- C10: for every request that passed validation and every decoded
start index, the pagination indices are in bounds: the start is
non-negative, and whenever the slice branch is taken the slice satisfies
`0 ≤ startIndex ≤ endIndex ≤ totalCount`; moreover a non-empty token
always decodes strictly inside the filtered set, so the empty-page branch
is reachable only from the empty token (when `startIndex ≥ total`). -/
theorem C10_pagination_bounds (req : ListServicesRequest)
    (sorted : List Service) (start : Int)
    (hv : validateListServicesRequest req = .ok ())
    (hs : getStartIndex req.pageToken (getPageSize req.pageSize)
      (sorted.length : Int) = .ok start) :
    0 ≤ start ∧
    (start < (sorted.length : Int) →
      start ≤ paginateEnd start (getPageSize req.pageSize) (sorted.length : Int) ∧
      paginateEnd start (getPageSize req.pageSize) (sorted.length : Int) ≤
        (sorted.length : Int)) ∧
    (req.pageToken ≠ "" → start < (sorted.length : Int)) := by
  have hps : 1 ≤ getPageSize req.pageSize := by
    apply getPageSize_pos
    intro hcon
    unfold validateListServicesRequest at hv
    rw [if_pos hcon] at hv
    exact absurd hv (by simp)
  have hinv := getStartIndex_ok_inv _ _ _ _ hs
  have h0 : 0 ≤ start := by rcases hinv with ⟨_, h⟩ | ⟨h, _⟩ <;> omega
  refine ⟨h0, ?_, ?_⟩
  · intro hlt
    unfold paginateEnd
    by_cases hcl : start + getPageSize req.pageSize > (sorted.length : Int)
    · rw [if_pos hcl]; omega
    · rw [if_neg hcl]; omega
  · intro hne
    rcases hinv with ⟨ht, _⟩ | ⟨_, h⟩
    · exact absurd ht hne
    · exact h

/-- Fixture request: page size 5, token `page_2`. -/
def reqPage2 : ListServicesRequest :=
  { pageSize := 5, pageToken := "page_2", organizationId := "",
    searchQuery := "", sortBy := "", sortOrder := "" }

/-- Fixture: a four-element filtered slice. -/
def fourServices : List Service := [svcUser, svcUser, svcUser, svcUser]

/-- Witness instantiating C10 at token `page_2` over four services. -/
theorem C10_pagination_bounds_witness :
    0 ≤ (2 : Int) ∧
    ((2 : Int) < (fourServices.length : Int) →
      (2 : Int) ≤ paginateEnd 2 (getPageSize reqPage2.pageSize)
        (fourServices.length : Int) ∧
      paginateEnd 2 (getPageSize reqPage2.pageSize) (fourServices.length : Int) ≤
        (fourServices.length : Int)) ∧
    (reqPage2.pageToken ≠ "" → (2 : Int) < (fourServices.length : Int)) := by
  exact C10_pagination_bounds reqPage2 fourServices 2 (by decide) (by decide)

/-! ## Claim C4 -/

/-- Generic ascending form of `sortLe` over a linear order. -/
theorem ascLe_iff {κ : Type} [LinearOrder κ] (x y : κ) :
    (decide (x < y) || !(decide (y < x))) = true ↔ x ≤ y := by
  simp only [Bool.or_eq_true, decide_eq_true_eq, Bool.not_eq_true',
    decide_eq_false_iff_not, not_lt]
  exact or_iff_right_of_imp (fun (h : x < y) => le_of_lt h)

/-- Generic descending form of `sortLe` over a linear order. -/
theorem descLe_iff {κ : Type} [LinearOrder κ] (x y : κ) :
    (!(decide (x < y)) || !(!(decide (y < x)))) = true ↔ y ≤ x := by
  simp only [Bool.or_eq_true, Bool.not_not, Bool.not_eq_true',
    decide_eq_false_iff_not, decide_eq_true_eq, not_lt]
  exact or_iff_left_of_imp (fun (h : y < x) => le_of_lt h)

/-- The normalised sort field is one of the three recognised fields. -/
theorem normSortBy_cases (s : String) :
    normSortBy s = "name" ∨ normSortBy s = "created_at" ∨
      normSortBy s = "updated_at" := by
  by_cases hn : s = "name"
  · subst hn; left; rfl
  by_cases hc : s = "created_at"
  · subst hc; right; left; rfl
  by_cases hu : s = "updated_at"
  · subst hu; right; right; rfl
  left
  by_cases h1 : s = ""
  · subst h1; rfl
  · simp [normSortBy, validSortFields, h1, hn, hc, hu]

/-- The normalised sort order is asc or desc. -/
theorem normSortOrder_cases (s : String) :
    normSortOrder s = "asc" ∨ normSortOrder s = "desc" := by
  by_cases ha : s = "asc"
  · subst ha; left; rfl
  by_cases hd : s = "desc"
  · subst hd; right; rfl
  left
  by_cases h1 : s = ""
  · subst h1; rfl
  · simp [normSortOrder, validSortOrders, h1, ha, hd]

/-- Characterisation of `sortLe` at field name, order asc. -/
theorem sortLe_name_asc_iff (a b : Service) :
    sortLe "name" "asc" a b = true ↔ a.name.data ≤ b.name.data :=
  ascLe_iff a.name.data b.name.data

/-- Characterisation of `sortLe` at field name, order desc. -/
theorem sortLe_name_desc_iff (a b : Service) :
    sortLe "name" "desc" a b = true ↔ b.name.data ≤ a.name.data :=
  descLe_iff a.name.data b.name.data

/-- Characterisation of `sortLe` at field created_at, order asc. -/
theorem sortLe_created_asc_iff (a b : Service) :
    sortLe "created_at" "asc" a b = true ↔ a.createdAt ≤ b.createdAt :=
  ascLe_iff a.createdAt b.createdAt

/-- Characterisation of `sortLe` at field created_at, order desc. -/
theorem sortLe_created_desc_iff (a b : Service) :
    sortLe "created_at" "desc" a b = true ↔ b.createdAt ≤ a.createdAt :=
  descLe_iff a.createdAt b.createdAt

/-- Characterisation of `sortLe` at field updated_at, order asc. -/
theorem sortLe_updated_asc_iff (a b : Service) :
    sortLe "updated_at" "asc" a b = true ↔ a.updatedAt ≤ b.updatedAt :=
  ascLe_iff a.updatedAt b.updatedAt

/-- Characterisation of `sortLe` at field updated_at, order desc. -/
theorem sortLe_updated_desc_iff (a b : Service) :
    sortLe "updated_at" "desc" a b = true ↔ b.updatedAt ≤ a.updatedAt :=
  descLe_iff a.updatedAt b.updatedAt

/-- Transitivity of the sort relation for normalised parameters. -/
theorem sortLe_norm_trans (sb so : String) :
    ∀ a b c : Service,
      sortLe (normSortBy sb) (normSortOrder so) a b = true →
      sortLe (normSortBy sb) (normSortOrder so) b c = true →
      sortLe (normSortBy sb) (normSortOrder so) a c = true := by
  rcases normSortBy_cases sb with hb | hb | hb <;>
    rcases normSortOrder_cases so with ho | ho <;>
    rw [hb, ho] <;> intro a b c hab hbc <;>
    simp only [sortLe_name_asc_iff, sortLe_name_desc_iff, sortLe_created_asc_iff,
      sortLe_created_desc_iff, sortLe_updated_asc_iff, sortLe_updated_desc_iff]
      at hab hbc ⊢ <;>
    first
      | exact le_trans hab hbc
      | exact le_trans hbc hab


/-- Totality of the sort relation for normalised parameters. -/
theorem sortLe_norm_total (sb so : String) :
    ∀ a b : Service,
      sortLe (normSortBy sb) (normSortOrder so) a b = true ∨
      sortLe (normSortBy sb) (normSortOrder so) b a = true := by
  rcases normSortBy_cases sb with hb | hb | hb <;>
    rcases normSortOrder_cases so with ho | ho <;>
    rw [hb, ho] <;> intro a b <;>
    simp only [sortLe_name_asc_iff, sortLe_name_desc_iff, sortLe_created_asc_iff,
      sortLe_created_desc_iff, sortLe_updated_asc_iff, sortLe_updated_desc_iff] <;>
    exact le_total _ _

/-- The natural non-strict order of the chosen sort field, as the spec
states it: lexicographic for the name, chronological for the timestamps. -/
def fieldLE (sb : String) (a b : Service) : Prop :=
  if sb = "created_at" then a.createdAt ≤ b.createdAt
  else if sb = "updated_at" then a.updatedAt ≤ b.updatedAt
  else a.name.data ≤ b.name.data

/-- C4: the sort step permutes its input; it sorts by name when the sort
field is empty or unrecognised and ascending when the sort order is empty
or unrecognised; under a recognised (or defaulted) order, "asc" produces
a sequence non-decreasing in the chosen field's natural order and "desc"
produces the inverted, non-increasing sequence. -/
theorem C4_sortServices_spec (l : List Service) (sb so : String) :
    List.Perm (sortServices l sb so) l ∧
    (validSortFields sb = false → sortServices l sb so = sortServices l "name" so) ∧
    (validSortOrders so = false → sortServices l sb so = sortServices l sb "asc") ∧
    (normSortOrder so = "asc" →
      (sortServices l sb so).Pairwise (fieldLE (normSortBy sb))) ∧
    (normSortOrder so = "desc" →
      (sortServices l sb so).Pairwise (fun a b => fieldLE (normSortBy sb) b a)) := by
  refine ⟨List.perm_insertionSort _ l, ?_, ?_, ?_, ?_⟩
  · intro hval
    have h1 : normSortBy sb = "name" := by
      unfold normSortBy
      by_cases h : sb = ""
      · simp [h]
      · simp [h, hval]
    simp only [sortServices, h1, show normSortBy "name" = "name" from rfl]
  · intro hval
    have h1 : normSortOrder so = "asc" := by
      unfold normSortOrder
      by_cases h : so = ""
      · simp [h]
      · simp [h, hval]
    simp only [sortServices, h1, show normSortOrder "asc" = "asc" from rfl]
  · intro hso
    haveI : IsTotal Service
        (fun a b => sortLe (normSortBy sb) (normSortOrder so) a b = true) :=
      ⟨sortLe_norm_total sb so⟩
    haveI : IsTrans Service
        (fun a b => sortLe (normSortBy sb) (normSortOrder so) a b = true) :=
      ⟨sortLe_norm_trans sb so⟩
    have hs := List.sorted_insertionSort
      (fun a b => sortLe (normSortBy sb) (normSortOrder so) a b = true) l
    refine List.Pairwise.imp ?_ hs
    intro a b hab
    rcases normSortBy_cases sb with hb | hb | hb <;>
      rw [hb] at hab ⊢ <;> rw [hso] at hab
    · exact (sortLe_name_asc_iff a b).mp hab
    · exact (sortLe_created_asc_iff a b).mp hab
    · exact (sortLe_updated_asc_iff a b).mp hab
  · intro hso
    haveI : IsTotal Service
        (fun a b => sortLe (normSortBy sb) (normSortOrder so) a b = true) :=
      ⟨sortLe_norm_total sb so⟩
    haveI : IsTrans Service
        (fun a b => sortLe (normSortBy sb) (normSortOrder so) a b = true) :=
      ⟨sortLe_norm_trans sb so⟩
    have hs := List.sorted_insertionSort
      (fun a b => sortLe (normSortBy sb) (normSortOrder so) a b = true) l
    refine List.Pairwise.imp ?_ hs
    intro a b hab
    rcases normSortBy_cases sb with hb | hb | hb <;>
      rw [hb] at hab ⊢ <;> rw [hso] at hab
    · exact (sortLe_name_desc_iff a b).mp hab
    · exact (sortLe_created_desc_iff a b).mp hab
    · exact (sortLe_updated_desc_iff a b).mp hab

/-- Fixture: three distinctly-named services. -/
def threeServices : List Service :=
  [ { id := "svc-2", name := "Payment Gateway", description := "p",
      organizationID := "org-2", url := "u2", createdAt := 2, updatedAt := 5,
      versions := [] },
    svcUser,
    { id := "svc-3", name := "Inventory Service", description := "i",
      organizationID := "org-1", url := "u3", createdAt := 3, updatedAt := 4,
      versions := [] } ]

/-- Witness instantiating C4 at an unrecognised sort field with order
desc over three distinctly-named services. -/
theorem C4_sortServices_spec_witness :
    List.Perm (sortServices threeServices "bogus_field" "desc") threeServices ∧
    sortServices threeServices "bogus_field" "desc" =
      sortServices threeServices "name" "desc" ∧
    (sortServices threeServices "bogus_field" "desc").Pairwise
      (fun a b => fieldLE (normSortBy "bogus_field") b a) := by
  have h := C4_sortServices_spec threeServices "bogus_field" "desc"
  exact ⟨h.1, h.2.1 (by decide), h.2.2.2.2 rfl⟩

/-! ## Claim C9 -/

/-- State-threaded `getAllServices`: reads the map and copies its values
into a freshly allocated slice (`make` + `append` in the source), handing
back the store untouched. -/
def getAllServicesSt (c : CatalogService) : List Service × CatalogService :=
  (c.data.map Prod.snd, c)

/-- State-threaded `CatalogService.ListServices`: every read of the
store is threaded explicitly; the in-place sort acts on the local slice
produced by `getAllServicesSt`, never on the store. -/
def CatalogService.ListServicesSt (c : CatalogService)
    (req : ListServicesRequest) :
    Except StatusError ListServicesResponse × CatalogService :=
  match validateListServicesRequest req with
  | .error e => (.error e, c)
  | .ok _ =>
    let scan := getAllServicesSt c
    let filtered := filterServices scan.1 req
    let sorted := sortServices filtered req.sortBy req.sortOrder
    let pageSize := getPageSize req.pageSize
    match getStartIndex req.pageToken pageSize sorted.length with
    | .error e => (.error e, scan.2)
    | .ok startIndex => (paginateServices sorted startIndex pageSize, scan.2)

/-- State-threaded `CatalogService.GetService`. -/
def CatalogService.GetServiceSt (c : CatalogService) (req : GetServiceRequest) :
    Except StatusError GetServiceResponse × CatalogService :=
  (c.GetService req, c)

/-- State-threaded `CatalogService.GetServiceVersions`. -/
def CatalogService.GetServiceVersionsSt (c : CatalogService)
    (req : GetServiceVersionsRequest) :
    Except StatusError GetServiceVersionsResponse × CatalogService :=
  (c.GetServiceVersions req, c)

/-- C9: none of the three operations changes the catalog store: for
every store and every request (valid or invalid), the store after the
call — its id-to-Service mapping and with it every Service and
ServiceVersion record — equals the store before the call, and the result
is the one computed from the pre-call store. -/
theorem C9_store_unchanged (c : CatalogService) (r1 : ListServicesRequest)
    (r2 : GetServiceRequest) (r3 : GetServiceVersionsRequest) :
    (c.ListServicesSt r1).2 = c ∧
    (c.ListServicesSt r1).1 = c.ListServices r1 ∧
    (c.GetServiceSt r2).2 = c ∧
    (c.GetServiceSt r2).1 = c.GetService r2 ∧
    (c.GetServiceVersionsSt r3).2 = c ∧
    (c.GetServiceVersionsSt r3).1 = c.GetServiceVersions r3 := by
  have hpair : c.ListServicesSt r1 = (c.ListServices r1, c) := by
    unfold CatalogService.ListServicesSt CatalogService.ListServices
      listServicesWith getAllServicesSt getAllServices
    split
    · rfl
    · dsimp only
      split <;> rfl
  exact ⟨by rw [hpair], by rw [hpair], rfl, rfl, rfl, rfl⟩

/-! ## Claim C6 -/

/-- Distinctness of the chosen sort field's value. -/
def sortKeyNe (sb : String) (a b : Service) : Prop :=
  if sb = "created_at" then a.createdAt ≠ b.createdAt
  else if sb = "updated_at" then a.updatedAt ≠ b.updatedAt
  else a.name ≠ b.name

/-- An enumeration a Go map-range over the store may produce: some
permutation of the stored values. -/
def isEnumOf (enum : List Service) (c : CatalogService) : Prop :=
  List.Perm enum (c.data.map Prod.snd)

/-- Fixture: two services tied on the default sort key (equal names). -/
def svcTieA : Service :=
  { id := "a", name := "x", description := "da", organizationID := "o1",
    url := "ua", createdAt := 1, updatedAt := 2, versions := [] }

/-- Fixture: the second of the two name-tied services. -/
def svcTieB : Service :=
  { id := "b", name := "x", description := "db", organizationID := "o2",
    url := "ub", createdAt := 3, updatedAt := 4, versions := [] }

/-- Fixture: a store holding the two name-tied services. -/
def storeTie : CatalogService := { data := [("a", svcTieA), ("b", svcTieB)] }

/-- Fixture: a ListServices request with all parameters at rest. -/
def reqDefault : ListServicesRequest :=
  { pageSize := 10, pageToken := "", organizationId := "", searchQuery := "",
    sortBy := "", sortOrder := "" }

/-- C6 counterexample: over a store holding two services with equal
names, the two enumerations Go map iteration may produce on successive
identical calls yield different ListServices results (the tie order
flips), so the operation is not a deterministic function of store
contents and request. -/
theorem C6_counterexample :
    isEnumOf [svcTieA, svcTieB] storeTie ∧
    isEnumOf [svcTieB, svcTieA] storeTie ∧
    listServicesWith [svcTieA, svcTieB] reqDefault ≠
      listServicesWith [svcTieB, svcTieA] reqDefault := by
  exact ⟨by unfold isEnumOf; decide, by unfold isEnumOf; decide, by decide⟩

/-- Two sorted permutations of one another coincide when the order is
antisymmetric on their members. -/
theorem eq_of_perm_of_pairwise_le (le : Service → Service → Bool) :
    ∀ (l1 l2 : List Service), List.Perm l1 l2 →
      l1.Pairwise (fun a b => le a b = true) →
      l2.Pairwise (fun a b => le a b = true) →
      (∀ a, a ∈ l1 → ∀ b, b ∈ l1 → le a b = true → le b a = true → a = b) →
      l1 = l2
  | [], l2, hperm, _, _, _ => (hperm.nil_eq).symm ▸ rfl
  | a :: t1, [], hperm, _, _, _ => absurd hperm.symm.nil_eq (by simp)
  | a :: t1, b :: t2, hperm, h1, h2, hanti => by
    have hab : a = b := by
      by_contra hne
      have hbmem : b ∈ a :: t1 := hperm.symm.subset (List.mem_cons_self b t2)
      have hamem : a ∈ b :: t2 := hperm.subset (List.mem_cons_self a t1)
      have hbt1 : b ∈ t1 := by
        cases List.mem_cons.mp hbmem with
        | inl h => exact absurd h.symm hne
        | inr h => exact h
      have hat2 : a ∈ t2 := by
        cases List.mem_cons.mp hamem with
        | inl h => exact absurd h hne
        | inr h => exact h
      have hle1 : le a b = true := (List.pairwise_cons.mp h1).1 b hbt1
      have hle2 : le b a = true := (List.pairwise_cons.mp h2).1 a hat2
      exact hne (hanti a (List.mem_cons_self a t1) b hbmem hle1 hle2)
    subst hab
    have htail : List.Perm t1 t2 := hperm.cons_inv
    have := eq_of_perm_of_pairwise_le le t1 t2 htail
      (List.pairwise_cons.mp h1).2 (List.pairwise_cons.mp h2).2
      (fun x hx y hy => hanti x (List.mem_cons_of_mem a hx)
        y (List.mem_cons_of_mem a hy))
    rw [this]

/-- C6 (amended): ListServices is a deterministic function of the store
contents and the request provided the filtered services carry pairwise
distinct values of the effective sort field: any two enumerations the
randomised map iteration may produce on two identical calls yield equal
results.  (GetService and GetServiceVersions never iterate the map and
are functions of the store and request by construction, hence always
deterministic.) -/
theorem C6_amended_determinism (e1 e2 : List Service)
    (req : ListServicesRequest) (hperm : List.Perm e1 e2)
    (hkeys : (filterServices e1 req).Pairwise
      (fun a b => sortKeyNe (normSortBy req.sortBy) a b)) :
    listServicesWith e1 req = listServicesWith e2 req := by
  haveI htotal : IsTotal Service
      (fun a b => sortLe (normSortBy req.sortBy) (normSortOrder req.sortOrder) a b = true) :=
    ⟨sortLe_norm_total req.sortBy req.sortOrder⟩
  haveI htrans : IsTrans Service
      (fun a b => sortLe (normSortBy req.sortBy) (normSortOrder req.sortOrder) a b = true) :=
    ⟨sortLe_norm_trans req.sortBy req.sortOrder⟩
  have hpf : List.Perm (filterServices e1 req) (filterServices e2 req) :=
    hperm.filter _
  have hkeyNe : ∀ a, a ∈ filterServices e1 req → ∀ b, b ∈ filterServices e1 req →
      a ≠ b → sortKeyNe (normSortBy req.sortBy) a b := by
    intro a ha b hb hne
    refine hkeys.forall ?_ ha hb hne
    intro x y hxy
    unfold sortKeyNe at hxy ⊢
    split_ifs at hxy ⊢ <;> exact fun h => hxy h.symm
  have hsorted : sortServices (filterServices e1 req) req.sortBy req.sortOrder =
      sortServices (filterServices e2 req) req.sortBy req.sortOrder := by
    apply eq_of_perm_of_pairwise_le
      (sortLe (normSortBy req.sortBy) (normSortOrder req.sortOrder))
    · exact (List.perm_insertionSort _ _).trans
        (hpf.trans (List.perm_insertionSort _ _).symm)
    · exact List.sorted_insertionSort _ _
    · exact List.sorted_insertionSort _ _
    · intro a ha b hb hab hba
      have ha1 : a ∈ filterServices e1 req := (List.mem_insertionSort _).mp ha
      have hb1 : b ∈ filterServices e1 req := (List.mem_insertionSort _).mp hb
      by_contra hne
      have hkey := hkeyNe a ha1 b hb1 hne
      rcases normSortBy_cases req.sortBy with hsb | hsb | hsb <;>
        rcases normSortOrder_cases req.sortOrder with hso | hso <;>
        rw [hsb, hso] at hab hba <;> rw [hsb] at hkey
      · exact hkey (String.ext (le_antisymm
          ((sortLe_name_asc_iff a b).mp hab) ((sortLe_name_asc_iff b a).mp hba)))
      · exact hkey (String.ext (le_antisymm
          ((sortLe_name_desc_iff b a).mp hba) ((sortLe_name_desc_iff a b).mp hab)))
      · exact hkey (le_antisymm
          ((sortLe_created_asc_iff a b).mp hab) ((sortLe_created_asc_iff b a).mp hba))
      · exact hkey (le_antisymm
          ((sortLe_created_desc_iff b a).mp hba) ((sortLe_created_desc_iff a b).mp hab))
      · exact hkey (le_antisymm
          ((sortLe_updated_asc_iff a b).mp hab) ((sortLe_updated_asc_iff b a).mp hba))
      · exact hkey (le_antisymm
          ((sortLe_updated_desc_iff b a).mp hba) ((sortLe_updated_desc_iff a b).mp hab))
  unfold listServicesWith
  cases validateListServicesRequest req with
  | error e => rfl
  | ok u => dsimp only; rw [hsorted]

/-- Witness instantiating the amended C6 on two enumerations of a store
of three distinctly-named services. -/
theorem C6_amended_determinism_witness :
    listServicesWith threeServices reqDefault =
      listServicesWith threeServices.reverse reqDefault := by
  exact C6_amended_determinism threeServices threeServices.reverse reqDefault
    (by decide) (by unfold sortKeyNe; decide)

/-! ## Claim C1 -/

/-- Embeds the client loop of the claim: issue the request with the
current token, stop on an error (`none`) or when the returned next token
is empty, else recurse on the returned token; `fuel` bounds the number
of calls. -/
def listPages (enum : List Service) (req : ListServicesRequest) :
    Nat → String → Option (List ProtoService)
  | 0, _ => none
  | fuel + 1, token =>
    match listServicesWith enum { req with pageToken := token } with
    | .error _ => none
    | .ok resp =>
      if resp.nextPageToken = "" then some resp.services
      else
        match listPages enum req fuel resp.nextPageToken with
        | none => none
        | some rest => some (resp.services ++ rest)

/-- Validation ignores the page token. -/
theorem validate_token_irrel (r : ListServicesRequest) (t : String) :
    validateListServicesRequest { r with pageToken := t } =
      validateListServicesRequest r := rfl

/-- The filter ignores the page token. -/
theorem filter_token_irrel (enum : List Service) (r : ListServicesRequest)
    (t : String) :
    filterServices enum { r with pageToken := t } = filterServices enum r := rfl

/-- The effective page size ignores the page token. -/
theorem pageSize_token_irrel (r : ListServicesRequest) (t : String) :
    getPageSize ({ r with pageToken := t } : ListServicesRequest).pageSize =
      getPageSize r.pageSize := rfl

/-- Updating the token field stores the token. -/
theorem pageToken_set (r : ListServicesRequest) (t : String) :
    ({ r with pageToken := t } : ListServicesRequest).pageToken = t := rfl

/-- Printing a natural number as an integer. -/
theorem intToDec_ofNat (m : Nat) : intToDec (m : Int) = natToDec m := by
  unfold intToDec
  rw [if_neg (by omega)]
  simp

/-- One pagination step over the sorted filtered sequence, with the
start strictly inside it: either a full page and a token for the next
offset, or the final (possibly short) page and no token. -/
theorem paginateServices_step (L : List Service) (o : Nat) (P : Int)
    (h1 : o < L.length) (hp : 1 ≤ P) :
    paginateServices L (o : Int) P =
      if o + P.toNat < L.length then
        .ok { services := ((L.map convertToProtoService).drop o).take P.toNat,
              nextPageToken := "page_" ++ natToDec (o + P.toNat),
              totalCount := (L.length : Int) }
      else
        .ok { services := (L.map convertToProtoService).drop o,
              nextPageToken := "",
              totalCount := (L.length : Int) } := by
  have hPcast : ((P.toNat : Int)) = P := Int.toNat_of_nonneg (by omega)
  unfold paginateServices
  rw [if_neg (by push_neg; exact_mod_cast h1)]
  dsimp only
  by_cases hc : o + P.toNat < L.length
  · rw [if_pos hc]
    have hE : paginateEnd (o : Int) P (L.length : Int) = (o : Int) + P := by
      unfold paginateEnd
      rw [if_neg (by omega)]
    rw [hE]
    have htok : ((o : Int) + P < (L.length : Int)) := by omega
    rw [if_pos htok]
    have hEo : ((o : Int) + P - (o : Int)).toNat = P.toNat := by omega
    have hEnat : (o : Int) + P = ((o + P.toNat : Nat) : Int) := by push_cast; omega
    rw [hEo, hEnat, intToDec_ofNat]
    simp [List.map_take, List.map_drop]
  · rw [if_neg hc]
    have hE : paginateEnd (o : Int) P (L.length : Int) = (L.length : Int) := by
      unfold paginateEnd
      split_ifs with hclamp
      · rfl
      · omega
    rw [hE]
    rw [if_neg (by omega)]
    have hEo : ((L.length : Int) - (o : Int)).toNat = L.length - o := by omega
    rw [hEo]
    have htake : ((L.drop o).take (L.length - o)) = L.drop o := by
      apply List.take_of_length_le
      simp
    simp [Int.toNat_ofNat, htake, List.map_drop]

/-- A validated request runs the filter, sort, decode and paginate
pipeline. -/
theorem listServicesWith_unfold (enum : List Service) (r : ListServicesRequest)
    (hv : validateListServicesRequest r = .ok ()) :
    listServicesWith enum r =
      match getStartIndex r.pageToken (getPageSize r.pageSize)
        ((sortServices (filterServices enum r) r.sortBy r.sortOrder).length : Int) with
      | .error e => .error e
      | .ok startIndex =>
        paginateServices (sortServices (filterServices enum r) r.sortBy r.sortOrder)
          startIndex (getPageSize r.pageSize) := by
  unfold listServicesWith
  rw [hv]

/-- Following tokens from any decodable offset collects exactly the tail
of the sorted filtered sequence from that offset. -/
theorem listPages_decode (enum : List Service) (req : ListServicesRequest)
    (hv : validateListServicesRequest req = .ok ())
    (hp : 1 ≤ getPageSize req.pageSize)
    (L : List Service)
    (hL : sortServices (filterServices enum req) req.sortBy req.sortOrder = L) :
    ∀ (fuel : Nat) (t : String) (o : Nat),
      getStartIndex t (getPageSize req.pageSize) (L.length : Int) = .ok (o : Int) →
      o < L.length → L.length - o ≤ fuel →
      listPages enum req fuel t =
        some ((L.map convertToProtoService).drop o) := by
  intro fuel
  induction fuel with
  | zero => intro t o _ h1 h2; omega
  | succ fuel ih =>
    intro t o hdec h1 h2
    simp only [listPages]
    rw [listServicesWith_unfold enum { req with pageToken := t }
      (by rw [validate_token_irrel]; exact hv)]
    simp only [filter_token_irrel, pageSize_token_irrel, pageToken_set, hL]
    rw [hdec]
    dsimp only
    rw [paginateServices_step L o (getPageSize req.pageSize) h1 hp]
    by_cases hc : o + (getPageSize req.pageSize).toNat < L.length
    · rw [if_pos hc]
      dsimp only
      rw [if_neg (pageToken_ne_empty _)]
      rw [ih ("page_" ++ natToDec (o + (getPageSize req.pageSize).toNat))
        (o + (getPageSize req.pageSize).toNat)
        (getStartIndex_minted _ _ _ (by exact_mod_cast hc)) hc (by omega)]
      dsimp only
      congr 1
      rw [← List.drop_drop, List.take_append_drop]
    · rw [if_neg hc]
      dsimp only
      rw [if_pos rfl]

/-- C1: for every store enumeration, every filter combination and every
page size between 1 and 100, starting with an empty page token and
re-issuing the identical request with each returned next-page-token
until it is empty assembles, in order and without gaps or duplicates,
exactly the filtered-and-sorted result sequence. -/
theorem C1_pagination_roundtrip (enum : List Service) (org q sb so : String)
    (p : Int) (hp1 : 1 ≤ p) (hp100 : p ≤ 100) :
    listPages enum
      { pageSize := p, pageToken := "", organizationId := org,
        searchQuery := q, sortBy := sb, sortOrder := so }
      (enum.length + 1) "" =
      some ((sortServices (filterServices enum
          { pageSize := p, pageToken := "", organizationId := org,
            searchQuery := q, sortBy := sb, sortOrder := so }) sb so).map
        convertToProtoService) := by
  have h100 : MaxPageSize = 100 := rfl
  have hv : validateListServicesRequest
      { pageSize := p, pageToken := "", organizationId := org,
        searchQuery := q, sortBy := sb, sortOrder := so } = .ok () := by
    unfold validateListServicesRequest
    rw [if_neg (by dsimp only; omega)]
  have hp : 1 ≤ getPageSize p := by
    unfold getPageSize
    rw [if_neg (by omega)]
    omega
  by_cases hN : (sortServices (filterServices enum
      { pageSize := p, pageToken := "", organizationId := org,
        searchQuery := q, sortBy := sb, sortOrder := so }) sb so).length = 0
  · have hnil : sortServices (filterServices enum
        { pageSize := p, pageToken := "", organizationId := org,
          searchQuery := q, sortBy := sb, sortOrder := so }) sb so = [] :=
      List.length_eq_zero.mp hN
    simp only [listPages]
    rw [listServicesWith_unfold enum _ hv]
    simp only [filter_token_irrel, pageSize_token_irrel, pageToken_set]
    rw [show (sortServices (filterServices enum
        { pageSize := p, pageToken := "", organizationId := org,
          searchQuery := q, sortBy := sb, sortOrder := so }) sb so) = []
      from hnil]
    rw [getStartIndex_empty]
    dsimp only
    unfold paginateServices
    rw [if_pos (by simp)]
    simp
  · have h1 : 0 < (sortServices (filterServices enum
        { pageSize := p, pageToken := "", organizationId := org,
          searchQuery := q, sortBy := sb, sortOrder := so }) sb so).length :=
      Nat.pos_of_ne_zero hN
    have hsort : (sortServices (filterServices enum
        { pageSize := p, pageToken := "", organizationId := org,
          searchQuery := q, sortBy := sb, sortOrder := so }) sb so).length =
        (filterServices enum
          { pageSize := p, pageToken := "", organizationId := org,
            searchQuery := q, sortBy := sb, sortOrder := so }).length :=
      (List.perm_insertionSort _ _).length_eq
    have hfle : (filterServices enum
        { pageSize := p, pageToken := "", organizationId := org,
          searchQuery := q, sortBy := sb, sortOrder := so }).length ≤
        enum.length := List.length_filter_le _ _
    have hres := listPages_decode enum
      { pageSize := p, pageToken := "", organizationId := org,
        searchQuery := q, sortBy := sb, sortOrder := so } hv hp _ rfl
      (enum.length + 1) "" 0 (getStartIndex_empty _ _) h1 (by dsimp only; omega)
    simpa using hres

/-- Witness instantiating C1: three services, page size 2 (two pages). -/
theorem C1_pagination_roundtrip_witness :
    listPages threeServices
      { pageSize := 2, pageToken := "", organizationId := "",
        searchQuery := "", sortBy := "name", sortOrder := "asc" }
      (threeServices.length + 1) "" =
      some ((sortServices (filterServices threeServices
          { pageSize := 2, pageToken := "", organizationId := "",
            searchQuery := "", sortBy := "name", sortOrder := "asc" })
          "name" "asc").map convertToProtoService) := by
  exact C1_pagination_roundtrip threeServices "" "" "name" "asc" 2
    (by decide) (by decide)
